import Mathlib

/-!
Verification of the `EarlyAllocator` bump allocator
(`arceos/modules/bump_allocator/src/lib.rs`).

The allocator owns one region `[start, end)` and serves byte allocations
growing upward from `start` and page allocations growing downward from `end`.
All machine arithmetic is 64-bit `usize` arithmetic; it is embedded here as
`Nat` with explicit wrapping (`% 2 ^ 64`) exactly where the Rust code can
overflow in release builds.
-/

/-- Width bound of the `usize` machine integers the allocator works with: `2 ^ 64`. -/
def USIZE : Nat := 2 ^ 64

/-- Truncation of a natural number to 64-bit `usize` (release-mode wrapping). -/
def wrap (x : Nat) : Nat := x % USIZE

/-- Wrapping 64-bit subtraction (`usize` subtraction in release mode). -/
def usub (a b : Nat) : Nat := (a + USIZE - b % USIZE) % USIZE

/-- Bitwise complement on 64 bits (Rust `!x` on `usize`). -/
def not64 (x : Nat) : Nat := USIZE - 1 - x % USIZE

/-- Least multiple of `a` that is `≥ x` (for `0 < a`); vocabulary used by the spec. -/
def round_up (x a : Nat) : Nat := (x + a - 1) / a * a

/-- Greatest multiple of `a` that is `≤ x`; vocabulary used by the spec. -/
def round_down (x a : Nat) : Nat := x / a * a

deriving instance DecidableEq for Except

/-- Error type of the allocator framework (`allocator::AllocError`); only the two
variants this allocator produces are modelled. -/
inductive AllocError where
  | NoMemory
  | InvalidParam
deriving DecidableEq, Repr

/-- State of the early allocator: one region `[start, end)`, two bump cursors and
the outstanding byte-allocation count (struct `EarlyAllocator`). -/
structure EarlyAllocator where
  start : Nat
  end_ : Nat
  byte_pos : Nat
  page_pos : Nat
  alloc_count : Nat
deriving DecidableEq, Repr

namespace EarlyAllocator

/-- Constructor `EarlyAllocator::new`: the zeroed, uninitialized allocator. -/
def new : EarlyAllocator :=
  { start := 0, end_ := 0, byte_pos := 0, page_pos := 0, alloc_count := 0 }

/-- Method `BaseAllocator::init`: set up the allocator over `[start, start+size)`. -/
def init (_s : EarlyAllocator) (start size : Nat) : EarlyAllocator :=
  { start := start, end_ := wrap (start + size),
    byte_pos := start, page_pos := wrap (start + size), alloc_count := 0 }

/-- Method `BaseAllocator::add_memory`: always fails with `NoMemory`, state untouched. -/
def add_memory (s : EarlyAllocator) (_start _size : Nat) :
    EarlyAllocator × Except AllocError Unit :=
  (s, .error .NoMemory)

/-- Method `ByteAllocator::alloc`: bump `byte_pos` forward.  Mirrors the source
line by line, including the final null-pointer check
(`NonNull::new(aligned_pos as *mut u8).ok_or(InvalidParam)`) that runs only
after the cursor and the counter have been updated. -/
def alloc (s : EarlyAllocator) (size align : Nat) :
    EarlyAllocator × Except AllocError Nat :=
  if size = 0 then (s, .error .InvalidParam)
  else
    let aligned_pos := usub (wrap (s.byte_pos + align)) 1 &&& not64 (usub align 1)
    let new_pos := wrap (aligned_pos + size)
    if new_pos > s.page_pos then (s, .error .NoMemory)
    else
      let s' := { s with byte_pos := new_pos, alloc_count := wrap (s.alloc_count + 1) }
      if aligned_pos = 0 then (s', .error .InvalidParam) else (s', .ok aligned_pos)

/-- Method `ByteAllocator::dealloc`: saturating decrement of `alloc_count`, then
reset of `byte_pos` to `start` when the count is zero.  The pointer and layout
arguments are ignored by the source and by the model. -/
def dealloc (s : EarlyAllocator) (_pos _lsize _lalign : Nat) : EarlyAllocator :=
  let c := if 0 < s.alloc_count then s.alloc_count - 1 else s.alloc_count
  if c = 0 then { s with alloc_count := c, byte_pos := s.start }
  else { s with alloc_count := c }

/-- Method `ByteAllocator::total_bytes`: `end - start`. -/
def total_bytes (s : EarlyAllocator) : Nat := usub s.end_ s.start

/-- Method `ByteAllocator::used_bytes`: bytes consumed at both ends. -/
def used_bytes (s : EarlyAllocator) : Nat :=
  wrap (usub s.byte_pos s.start + usub s.end_ s.page_pos)

/-- Method `ByteAllocator::available_bytes`: the middle gap `page_pos - byte_pos`. -/
def available_bytes (s : EarlyAllocator) : Nat := usub s.page_pos s.byte_pos

/-- Method `PageAllocator::alloc_pages`: bump `page_pos` backward, rounded down
to the alignment `PAGE_SIZE << align_pow2`.  `ps` is the `PAGE_SIZE` const
generic parameter of the Rust type. -/
def alloc_pages (ps : Nat) (s : EarlyAllocator) (num_pages align_pow2 : Nat) :
    EarlyAllocator × Except AllocError Nat :=
  if num_pages = 0 then (s, .error .InvalidParam)
  else
    let bytes_size := wrap (num_pages * ps)
    let align := wrap (ps <<< align_pow2)
    let aligned_pos := usub s.page_pos bytes_size &&& not64 (usub align 1)
    if aligned_pos < s.byte_pos then (s, .error .NoMemory)
    else ({ s with page_pos := aligned_pos }, .ok aligned_pos)

/-- Method `PageAllocator::dealloc_pages`: a no-op by design. -/
def dealloc_pages (s : EarlyAllocator) (_pos _num_pages : Nat) : EarlyAllocator := s

/-- Method `PageAllocator::total_pages`. -/
def total_pages (ps : Nat) (s : EarlyAllocator) : Nat := s.total_bytes / ps

/-- Method `PageAllocator::used_pages`. -/
def used_pages (ps : Nat) (s : EarlyAllocator) : Nat := usub s.end_ s.page_pos / ps

/-- Method `PageAllocator::available_pages`. -/
def available_pages (ps : Nat) (s : EarlyAllocator) : Nat :=
  usub s.page_pos s.byte_pos / ps

end EarlyAllocator

/-- States reachable from `init(start, size)` through any sequence of `alloc`,
`dealloc`, `alloc_pages`, `dealloc_pages` and `add_memory` calls, restricted as
the spec's claims are to power-of-two alignments and in-bounds (non-wrapping)
arithmetic.  Query methods do not mutate the state, so they need no step.
`ps` is the `PAGE_SIZE` parameter of the allocator instance. -/
inductive Reachable (ps : Nat) : EarlyAllocator → Prop
  | init (s : EarlyAllocator) (start size : Nat) (hib : start + size < USIZE) :
      Reachable ps (s.init start size)
  | alloc (s : EarlyAllocator) (size align k : Nat) (hs : Reachable ps s)
      (hk : k ≤ 63) (hal : align = 2 ^ k)
      (hib : s.byte_pos + align + size ≤ USIZE) :
      Reachable ps (s.alloc size align).1
  | dealloc (s : EarlyAllocator) (pos lsize lalign : Nat) (hs : Reachable ps s) :
      Reachable ps (s.dealloc pos lsize lalign)
  | alloc_pages (s : EarlyAllocator) (num_pages align_pow2 j : Nat)
      (hs : Reachable ps s) (hj : j ≤ 63) (hal : ps <<< align_pow2 = 2 ^ j)
      (hib : num_pages * ps ≤ s.page_pos) :
      Reachable ps (EarlyAllocator.alloc_pages ps s num_pages align_pow2).1
  | dealloc_pages (s : EarlyAllocator) (pos num_pages : Nat) (hs : Reachable ps s) :
      Reachable ps (s.dealloc_pages pos num_pages)
  | add_memory (s : EarlyAllocator) (start size : Nat) (hs : Reachable ps s) :
      Reachable ps (s.add_memory start size).1

/-- The internal well-formedness invariant maintained by every reachable state:
the cursor ordering, that the region fits in `usize`, that the outstanding count
never exceeds the bytes handed out, and that a zero count pins the byte cursor
to `start`. -/
def WF (s : EarlyAllocator) : Prop :=
  s.start ≤ s.byte_pos ∧ s.byte_pos ≤ s.page_pos ∧ s.page_pos ≤ s.end_ ∧
  s.end_ < USIZE ∧ s.alloc_count ≤ s.byte_pos - s.start ∧
  (s.alloc_count = 0 → s.byte_pos = s.start)

/-- A run of byte allocations that all succeed (each call returns `Ok`), under
the claims' ambient hypotheses of power-of-two alignment and in-bounds
arithmetic.  `reqs` lists the (size, align) pairs in call order; the run takes
the allocator from the first state to the last. -/
inductive AllocChain : EarlyAllocator → List (Nat × Nat) → EarlyAllocator → Prop
  | nil (s : EarlyAllocator) : AllocChain s [] s
  | cons (s s' : EarlyAllocator) (size align k a : Nat) (reqs : List (Nat × Nat))
      (hk : k ≤ 63) (hal : align = 2 ^ k)
      (hib : s.byte_pos + align + size ≤ USIZE)
      (hok : (s.alloc size align).2 = .ok a)
      (hrest : AllocChain (s.alloc size align).1 reqs s') :
      AllocChain s ((size, align) :: reqs) s'

/-- Sequential application of `dealloc`, one call per list entry; each entry
carries the (ignored) pointer and layout arguments of that call. -/
def deallocSeq (s : EarlyAllocator) : List (Nat × Nat × Nat) → EarlyAllocator
  | [] => s
  | c :: rest => deallocSeq (s.dealloc c.1 c.2.1 c.2.2) rest

/-- Concrete state used in counterexamples: a region starting at address zero,
`init(0, 4096)`. -/
def stateAtZero : EarlyAllocator :=
  { start := 0, end_ := 4096, byte_pos := 0, page_pos := 4096, alloc_count := 0 }

theorem wrap_of_lt {x : Nat} (h : x < USIZE) : wrap x = x := Nat.mod_eq_of_lt h

theorem usub_of_le {a b : Nat} (hba : b ≤ a) (ha : a < USIZE) : usub a b = a - b := by
  unfold usub
  rw [Nat.mod_eq_of_lt (lt_of_le_of_lt hba ha)]
  have h1 : a + USIZE - b = USIZE + (a - b) := by omega
  rw [h1, Nat.add_mod_left, Nat.mod_eq_of_lt (by omega)]

/-- Clearing the low `k` bits of a 64-bit value rounds it down to a multiple of `2 ^ k`. -/
theorem land_mask (x k : Nat) (hx : x < 2 ^ 64) (hk : k ≤ 64) :
    x &&& (2 ^ 64 - 2 ^ k) = x / 2 ^ k * 2 ^ k := by
  have hmask : (2 : Nat) ^ 64 - 2 ^ k = (2 ^ (64 - k) - 1) <<< k := by
    rw [Nat.shiftLeft_eq, Nat.sub_mul, one_mul, ← pow_add, Nat.sub_add_cancel hk]
  have hrhs : x / 2 ^ k * 2 ^ k = (x >>> k) <<< k := by
    rw [Nat.shiftLeft_eq, Nat.shiftRight_eq_div_pow]
  rw [hmask, hrhs]
  apply Nat.eq_of_testBit_eq
  intro i
  rw [Nat.testBit_land, Nat.testBit_shiftLeft, Nat.testBit_shiftLeft, Nat.testBit_shiftRight,
      Nat.testBit_two_pow_sub_one]
  by_cases hik : k ≤ i
  · by_cases hi64 : i < 64
    · have hkk : k + (i - k) = i := by omega
      have hlt : i - k < 64 - k := by omega
      simp [ge_iff_le, hik, hkk, hlt]
    · have hxi : x.testBit i = false :=
        Nat.testBit_lt_two_pow
          (lt_of_lt_of_le hx (Nat.pow_le_pow_right (by norm_num) (by omega)))
      simp [ge_iff_le, hik, hxi]
  · simp [ge_iff_le, hik]

theorem le_round_up (x a : Nat) (ha : 0 < a) : x ≤ round_up x a := by
  unfold round_up
  have h1 := Nat.div_add_mod (x + a - 1) a
  have h2 : (x + a - 1) % a < a := Nat.mod_lt _ ha
  have h3 : (x + a - 1) / a * a = a * ((x + a - 1) / a) := Nat.mul_comm _ _
  omega

theorem round_up_le (x a : Nat) : round_up x a ≤ x + a - 1 := Nat.div_mul_le_self _ _

theorem round_down_le (x a : Nat) : round_down x a ≤ x := Nat.div_mul_le_self _ _

/-- The masked cursor computed by `alloc` is exactly `round_up byte_pos align`
when `align = 2 ^ k` is a power of two and the addition does not overflow. -/
theorem alloc_aligned_eq (b k : Nat) (hk : k ≤ 63) (hb : b + 2 ^ k < USIZE) :
    usub (wrap (b + 2 ^ k)) 1 &&& not64 (usub (2 ^ k) 1) = round_up b (2 ^ k) := by
  have h2k : (1 : Nat) ≤ 2 ^ k := Nat.one_le_two_pow
  have h2klt : (2 : Nat) ^ k < USIZE := by
    have : (2 : Nat) ^ k ≤ 2 ^ 63 := Nat.pow_le_pow_right (by norm_num) hk
    unfold USIZE
    omega
  rw [wrap_of_lt hb, usub_of_le (by omega) hb, usub_of_le h2k h2klt]
  have hnot : not64 (2 ^ k - 1) = 2 ^ 64 - 2 ^ k := by
    unfold not64 USIZE
    rw [Nat.mod_eq_of_lt (by unfold USIZE at h2klt; omega)]
    omega
  rw [hnot, land_mask _ _ (by unfold USIZE at hb; omega) (by omega)]
  rfl

/-- The masked cursor computed by `alloc_pages` is exactly
`round_down (page_pos - bytes_size) align` for a power-of-two `align` and an
in-bounds subtraction. -/
theorem pages_aligned_eq (p bs j : Nat) (hj : j ≤ 63) (hbs : bs ≤ p) (hp : p < USIZE) :
    usub p bs &&& not64 (usub (2 ^ j) 1) = round_down (p - bs) (2 ^ j) := by
  have h2j : (1 : Nat) ≤ 2 ^ j := Nat.one_le_two_pow
  have h2jlt : (2 : Nat) ^ j < USIZE := by
    have : (2 : Nat) ^ j ≤ 2 ^ 63 := Nat.pow_le_pow_right (by norm_num) hj
    unfold USIZE
    omega
  rw [usub_of_le hbs hp, usub_of_le h2j h2jlt]
  have hnot : not64 (2 ^ j - 1) = 2 ^ 64 - 2 ^ j := by
    unfold not64 USIZE
    rw [Nat.mod_eq_of_lt (by unfold USIZE at h2jlt; omega)]
    omega
  rw [hnot, land_mask _ _ (by unfold USIZE at hp; omega) (by omega)]
  rfl

/-- Closed form of `alloc` under the claims' ambient hypotheses: a power-of-two
alignment and in-bounds cursor arithmetic.  The counter update stays wrapped. -/
theorem alloc_eq (s : EarlyAllocator) (size align k : Nat) (hk : k ≤ 63)
    (hal : align = 2 ^ k) (hib : s.byte_pos + align + size ≤ USIZE) :
    s.alloc size align =
      if size = 0 then (s, .error .InvalidParam)
      else if s.page_pos < round_up s.byte_pos align + size then (s, .error .NoMemory)
      else if round_up s.byte_pos align = 0 then
        ({ s with byte_pos := round_up s.byte_pos align + size,
                  alloc_count := wrap (s.alloc_count + 1) }, .error .InvalidParam)
      else
        ({ s with byte_pos := round_up s.byte_pos align + size,
                  alloc_count := wrap (s.alloc_count + 1) },
         .ok (round_up s.byte_pos align)) := by
  subst hal
  by_cases h0 : size = 0
  · simp [EarlyAllocator.alloc, h0]
  · have h1 : 0 < size := Nat.pos_of_ne_zero h0
    have h2kpos : (1 : Nat) ≤ 2 ^ k := Nat.one_le_two_pow
    have hb : s.byte_pos + 2 ^ k < USIZE := by omega
    have hA := alloc_aligned_eq s.byte_pos k hk hb
    have hru : round_up s.byte_pos (2 ^ k) ≤ s.byte_pos + 2 ^ k - 1 := round_up_le _ _
    have hW : wrap (round_up s.byte_pos (2 ^ k) + size) = round_up s.byte_pos (2 ^ k) + size :=
      wrap_of_lt (by omega)
    simp only [EarlyAllocator.alloc, h0, if_false, hA, hW, gt_iff_lt]

/-- Closed form of `alloc_pages` under the claims' ambient hypotheses: the
derived alignment is a power of two and the subtraction does not underflow. -/
theorem alloc_pages_eq (ps : Nat) (s : EarlyAllocator) (num_pages align_pow2 j : Nat)
    (hj : j ≤ 63) (hal : ps <<< align_pow2 = 2 ^ j)
    (hbs : num_pages * ps ≤ s.page_pos) (hp : s.page_pos < USIZE) :
    EarlyAllocator.alloc_pages ps s num_pages align_pow2 =
      if num_pages = 0 then (s, .error .InvalidParam)
      else if round_down (s.page_pos - num_pages * ps) (ps <<< align_pow2) < s.byte_pos then
        (s, .error .NoMemory)
      else
        ({ s with page_pos := round_down (s.page_pos - num_pages * ps) (ps <<< align_pow2) },
         .ok (round_down (s.page_pos - num_pages * ps) (ps <<< align_pow2))) := by
  by_cases h0 : num_pages = 0
  · simp [EarlyAllocator.alloc_pages, h0]
  · have h2j : (2 : Nat) ^ j < USIZE := by
      have : (2 : Nat) ^ j ≤ 2 ^ 63 := Nat.pow_le_pow_right (by norm_num) hj
      unfold USIZE
      omega
    have hWb : wrap (num_pages * ps) = num_pages * ps :=
      wrap_of_lt (lt_of_le_of_lt hbs hp)
    have hWa : wrap (ps <<< align_pow2) = ps <<< align_pow2 := by
      rw [hal]; exact wrap_of_lt h2j
    have hA : usub s.page_pos (num_pages * ps) &&& not64 (usub (ps <<< align_pow2) 1) =
        round_down (s.page_pos - num_pages * ps) (ps <<< align_pow2) := by
      rw [hal]; exact pages_aligned_eq s.page_pos (num_pages * ps) j hj hbs hp
    simp only [EarlyAllocator.alloc_pages, h0, if_false, hWb, hWa, hA]

/-- Closed form of `dealloc`: saturating decrement plus bulk reset at zero. -/
theorem dealloc_eq (s : EarlyAllocator) (pos lsize lalign : Nat) :
    s.dealloc pos lsize lalign =
      if s.alloc_count ≤ 1 then { s with alloc_count := 0, byte_pos := s.start }
      else { s with alloc_count := s.alloc_count - 1 } := by
  unfold EarlyAllocator.dealloc
  rcases Nat.lt_trichotomy s.alloc_count 1 with h | h | h
  · have h0 : s.alloc_count = 0 := by omega
    simp [h0]
  · simp [h, show (0 : Nat) < 1 from by omega]
  · have hpos : 0 < s.alloc_count := by omega
    have hne : ¬(s.alloc_count - 1 = 0) := by omega
    have hle : ¬(s.alloc_count ≤ 1) := by omega
    simp [hpos, hne, hle]

/-- On a zero-size request `alloc` rejects with `InvalidParam` and leaves the
state untouched. -/
theorem alloc_zero (s : EarlyAllocator) (align : Nat) :
    s.alloc 0 align = (s, .error .InvalidParam) := by
  simp [EarlyAllocator.alloc]

/-- When the aligned request would cross `page_pos`, `alloc` rejects with
`NoMemory` and leaves the state untouched. -/
theorem alloc_nomem (s : EarlyAllocator) (size align k : Nat) (hk : k ≤ 63)
    (hal : align = 2 ^ k) (hib : s.byte_pos + align + size ≤ USIZE)
    (h1 : 0 < size) (hmem : s.page_pos < round_up s.byte_pos align + size) :
    s.alloc size align = (s, .error .NoMemory) := by
  rw [alloc_eq s size align k hk hal hib, if_neg (by omega), if_pos hmem]

/-- The state after a committing `alloc` call: the byte cursor moves to the end
of the rounded-up block and the counter is bumped (both commit branches of the
source, the returning one and the null-pointer one, produce this state). -/
theorem alloc_fst_commit (s : EarlyAllocator) (size align k : Nat) (hk : k ≤ 63)
    (hal : align = 2 ^ k) (hib : s.byte_pos + align + size ≤ USIZE)
    (h1 : 0 < size) (hmem : round_up s.byte_pos align + size ≤ s.page_pos) :
    (s.alloc size align).1 =
      { s with byte_pos := round_up s.byte_pos align + size,
               alloc_count := wrap (s.alloc_count + 1) } := by
  rw [alloc_eq s size align k hk hal hib, if_neg (by omega), if_neg (Nat.not_lt.mpr hmem)]
  split <;> rfl

/-- The value returned by a committing `alloc` call whose aligned position is
nonzero: the rounded-up cursor position. -/
theorem alloc_snd_commit (s : EarlyAllocator) (size align k : Nat) (hk : k ≤ 63)
    (hal : align = 2 ^ k) (hib : s.byte_pos + align + size ≤ USIZE)
    (h1 : 0 < size) (hmem : round_up s.byte_pos align + size ≤ s.page_pos)
    (hz : 0 < round_up s.byte_pos align) :
    s.alloc size align =
      ({ s with byte_pos := round_up s.byte_pos align + size,
                alloc_count := wrap (s.alloc_count + 1) },
       .ok (round_up s.byte_pos align)) := by
  rw [alloc_eq s size align k hk hal hib, if_neg (by omega), if_neg (Nat.not_lt.mpr hmem),
      if_neg (by omega)]

/-- On a zero-count request `alloc_pages` rejects with `InvalidParam` and leaves
the state untouched. -/
theorem alloc_pages_zero (ps : Nat) (s : EarlyAllocator) (align_pow2 : Nat) :
    EarlyAllocator.alloc_pages ps s 0 align_pow2 = (s, .error .InvalidParam) := by
  simp [EarlyAllocator.alloc_pages]

/-- When the rounded-down candidate falls below `byte_pos`, `alloc_pages`
rejects with `NoMemory` and leaves the state untouched. -/
theorem alloc_pages_nomem (ps : Nat) (s : EarlyAllocator) (num_pages align_pow2 j : Nat)
    (hj : j ≤ 63) (hal : ps <<< align_pow2 = 2 ^ j)
    (hbs : num_pages * ps ≤ s.page_pos) (hp : s.page_pos < USIZE)
    (h1 : 0 < num_pages)
    (hno : round_down (s.page_pos - num_pages * ps) (ps <<< align_pow2) < s.byte_pos) :
    EarlyAllocator.alloc_pages ps s num_pages align_pow2 = (s, .error .NoMemory) := by
  rw [alloc_pages_eq ps s num_pages align_pow2 j hj hal hbs hp, if_neg (by omega), if_pos hno]

/-- A committing `alloc_pages` call: `page_pos` moves down to the rounded-down
candidate, which is also the returned base address. -/
theorem alloc_pages_commit (ps : Nat) (s : EarlyAllocator) (num_pages align_pow2 j : Nat)
    (hj : j ≤ 63) (hal : ps <<< align_pow2 = 2 ^ j)
    (hbs : num_pages * ps ≤ s.page_pos) (hp : s.page_pos < USIZE)
    (h1 : 0 < num_pages)
    (hno : s.byte_pos ≤ round_down (s.page_pos - num_pages * ps) (ps <<< align_pow2)) :
    EarlyAllocator.alloc_pages ps s num_pages align_pow2 =
      ({ s with page_pos := round_down (s.page_pos - num_pages * ps) (ps <<< align_pow2) },
       .ok (round_down (s.page_pos - num_pages * ps) (ps <<< align_pow2))) := by
  rw [alloc_pages_eq ps s num_pages align_pow2 j hj hal hbs hp, if_neg (by omega),
      if_neg (Nat.not_lt.mpr hno)]

/-- The counter increment of a committing `alloc` call never wraps in a
well-formed state: the count is bounded by the bytes already handed out. -/
theorem alloc_count_no_wrap (s : EarlyAllocator) (size align : Nat) (hWF : WF s)
    (hsz : 0 < size) (hapos : 1 ≤ align)
    (hmem : round_up s.byte_pos align + size ≤ s.page_pos) :
    s.alloc_count + 1 < USIZE := by
  obtain ⟨h1, h2, h3, h4, h5, h6⟩ := hWF
  have hge : s.byte_pos ≤ round_up s.byte_pos align := le_round_up _ _ hapos
  omega

/-- Byte allocation preserves the well-formedness invariant. -/
theorem wf_alloc (s : EarlyAllocator) (size align k : Nat) (hWF : WF s) (hk : k ≤ 63)
    (hal : align = 2 ^ k) (hib : s.byte_pos + align + size ≤ USIZE) :
    WF (s.alloc size align).1 := by
  obtain ⟨h1, h2, h3, h4, h5, h6⟩ := hWF
  by_cases h0 : size = 0
  · subst h0
    rw [alloc_zero]
    exact ⟨h1, h2, h3, h4, h5, h6⟩
  · have hsz : 0 < size := Nat.pos_of_ne_zero h0
    have hapos : (1 : Nat) ≤ align := by rw [hal]; exact Nat.one_le_two_pow
    have hge : s.byte_pos ≤ round_up s.byte_pos align := le_round_up _ _ hapos
    have hle : round_up s.byte_pos align ≤ s.byte_pos + align - 1 := round_up_le _ _
    by_cases hmem : s.page_pos < round_up s.byte_pos align + size
    · rw [alloc_nomem s size align k hk hal hib hsz hmem]
      exact ⟨h1, h2, h3, h4, h5, h6⟩
    · have hmem2 : round_up s.byte_pos align + size ≤ s.page_pos := by omega
      have hcnt : s.alloc_count + 1 < USIZE := by omega
      have hwc : wrap (s.alloc_count + 1) = s.alloc_count + 1 := wrap_of_lt hcnt
      rw [alloc_fst_commit s size align k hk hal hib hsz hmem2, hwc]
      refine ⟨?_, ?_, ?_, ?_, ?_, ?_⟩ <;> dsimp only <;> omega

/-- Every reachable state satisfies the well-formedness invariant `WF`. -/
theorem reachable_wf {ps : Nat} {s : EarlyAllocator} (h : Reachable ps s) : WF s := by
  induction h with
  | init s0 start size hib =>
      have hw := wrap_of_lt hib
      refine ⟨?_, ?_, ?_, ?_, ?_, ?_⟩ <;> dsimp only [EarlyAllocator.init] <;> omega
  | alloc s0 size align k hs hk hal hib ih =>
      exact wf_alloc s0 size align k ih hk hal hib
  | dealloc s0 pos lsize lalign hs ih =>
      obtain ⟨h1, h2, h3, h4, h5, h6⟩ := ih
      rw [dealloc_eq s0 pos lsize lalign]
      by_cases hc : s0.alloc_count ≤ 1
      · rw [if_pos hc]
        refine ⟨?_, ?_, ?_, ?_, ?_, ?_⟩ <;> dsimp only <;> omega
      · rw [if_neg hc]
        refine ⟨?_, ?_, ?_, ?_, ?_, ?_⟩ <;> dsimp only <;> omega
  | alloc_pages s0 num_pages align_pow2 j hs hj hal hib ih =>
      obtain ⟨h1, h2, h3, h4, h5, h6⟩ := ih
      by_cases h0 : num_pages = 0
      · subst h0
        rw [alloc_pages_zero]
        exact ⟨h1, h2, h3, h4, h5, h6⟩
      · have hnp : 0 < num_pages := Nat.pos_of_ne_zero h0
        have hrd : round_down (s0.page_pos - num_pages * ps) (ps <<< align_pow2) ≤
            s0.page_pos - num_pages * ps := round_down_le _ _
        by_cases hno : round_down (s0.page_pos - num_pages * ps) (ps <<< align_pow2) <
            s0.byte_pos
        · rw [alloc_pages_nomem ps s0 num_pages align_pow2 j hj hal hib (by omega) hnp hno]
          exact ⟨h1, h2, h3, h4, h5, h6⟩
        · have hno2 : s0.byte_pos ≤
              round_down (s0.page_pos - num_pages * ps) (ps <<< align_pow2) := by omega
          rw [alloc_pages_commit ps s0 num_pages align_pow2 j hj hal hib (by omega) hnp hno2]
          refine ⟨?_, ?_, ?_, ?_, ?_, ?_⟩ <;> dsimp only <;> omega
  | dealloc_pages s0 pos num_pages hs ih =>
      exact ih
  | add_memory s0 start size hs ih =>
      exact ih

/-- Fields `start`, `end_`, `page_pos` are never touched by `alloc`, in any
branch (no hypotheses needed). -/
theorem alloc_fst_frame (t : EarlyAllocator) (size align : Nat) :
    (t.alloc size align).1.start = t.start ∧ (t.alloc size align).1.end_ = t.end_ ∧
    (t.alloc size align).1.page_pos = t.page_pos := by
  unfold EarlyAllocator.alloc
  dsimp only
  split
  · exact ⟨rfl, rfl, rfl⟩
  · split
    · exact ⟨rfl, rfl, rfl⟩
    · split <;> exact ⟨rfl, rfl, rfl⟩

/-- Fields `start`, `end_`, `page_pos` are never touched by `dealloc`. -/
theorem dealloc_frame (t : EarlyAllocator) (pos lsize lalign : Nat) :
    (t.dealloc pos lsize lalign).start = t.start ∧
    (t.dealloc pos lsize lalign).end_ = t.end_ ∧
    (t.dealloc pos lsize lalign).page_pos = t.page_pos := by
  unfold EarlyAllocator.dealloc
  dsimp only
  split <;> split <;> exact ⟨rfl, rfl, rfl⟩

/-- Fields `start`, `end_`, `byte_pos`, `alloc_count` are never touched by
`alloc_pages`, in any branch. -/
theorem alloc_pages_fst_frame (ps2 : Nat) (t : EarlyAllocator) (num_pages align_pow2 : Nat) :
    (EarlyAllocator.alloc_pages ps2 t num_pages align_pow2).1.start = t.start ∧
    (EarlyAllocator.alloc_pages ps2 t num_pages align_pow2).1.end_ = t.end_ ∧
    (EarlyAllocator.alloc_pages ps2 t num_pages align_pow2).1.byte_pos = t.byte_pos ∧
    (EarlyAllocator.alloc_pages ps2 t num_pages align_pow2).1.alloc_count = t.alloc_count := by
  unfold EarlyAllocator.alloc_pages
  dsimp only
  split
  · exact ⟨rfl, rfl, rfl, rfl⟩
  · split <;> exact ⟨rfl, rfl, rfl, rfl⟩

/-- Whenever `alloc_pages` returns an error, the state is exactly the input
state (both error returns precede any mutation); no hypotheses needed. -/
theorem alloc_pages_error_frame (ps : Nat) (s : EarlyAllocator) (num_pages align_pow2 : Nat)
    (e : AllocError)
    (he : (EarlyAllocator.alloc_pages ps s num_pages align_pow2).2 = .error e) :
    (EarlyAllocator.alloc_pages ps s num_pages align_pow2).1 = s := by
  unfold EarlyAllocator.alloc_pages at he ⊢
  dsimp only at he ⊢
  by_cases h0 : num_pages = 0
  · rw [if_pos h0]
  · rw [if_neg h0] at he ⊢
    by_cases hc : (usub s.page_pos (wrap (num_pages * ps)) &&&
        not64 (usub (wrap (ps <<< align_pow2)) 1)) < s.byte_pos
    · rw [if_pos hc]
    · rw [if_neg hc] at he
      simp at he

/-- A successful `alloc` call implies a positive size, enough room below
`page_pos`, and produces exactly the committed state. -/
theorem alloc_ok_inv (s : EarlyAllocator) (size align k a : Nat) (hk : k ≤ 63)
    (hal : align = 2 ^ k) (hib : s.byte_pos + align + size ≤ USIZE)
    (hok : (s.alloc size align).2 = .ok a) :
    0 < size ∧ round_up s.byte_pos align + size ≤ s.page_pos ∧
    (s.alloc size align).1 =
      { s with byte_pos := round_up s.byte_pos align + size,
               alloc_count := wrap (s.alloc_count + 1) } := by
  have h0 : size ≠ 0 := by
    intro h
    subst h
    rw [alloc_zero] at hok
    simp at hok
  have h1 : 0 < size := Nat.pos_of_ne_zero h0
  by_cases hmem : s.page_pos < round_up s.byte_pos align + size
  · rw [alloc_nomem s size align k hk hal hib h1 hmem] at hok
    simp at hok
  · exact ⟨h1, by omega, alloc_fst_commit s size align k hk hal hib h1 (by omega)⟩

/-- Accumulated facts about a run of successful byte allocations from a
well-formed state: well-formedness is preserved, the region is unchanged, the
count grows by the number of calls, and the byte cursor moves strictly up as
soon as at least one call happened. -/
theorem allocChain_props {s0 s1 : EarlyAllocator} {reqs : List (Nat × Nat)}
    (hch : AllocChain s0 reqs s1) :
    WF s0 →
      WF s1 ∧ s1.start = s0.start ∧ s1.end_ = s0.end_ ∧
      s1.alloc_count = s0.alloc_count + reqs.length ∧
      s0.byte_pos ≤ s1.byte_pos ∧ (reqs ≠ [] → s0.byte_pos < s1.byte_pos) := by
  induction hch with
  | nil s =>
      intro hWF
      exact ⟨hWF, rfl, rfl, by simp, le_refl _, by simp⟩
  | cons s s' size align k a reqs hk hal hib hok hrest ih =>
      intro hWF
      obtain ⟨hsz, hmem, hfst⟩ := alloc_ok_inv s size align k a hk hal hib hok
      have hapos : (1 : Nat) ≤ align := by rw [hal]; exact Nat.one_le_two_pow
      have hge : s.byte_pos ≤ round_up s.byte_pos align := le_round_up _ _ hapos
      have hcnt : s.alloc_count + 1 < USIZE :=
        alloc_count_no_wrap s size align hWF hsz hapos hmem
      have hwc : wrap (s.alloc_count + 1) = s.alloc_count + 1 := wrap_of_lt hcnt
      have hWF1 : WF (s.alloc size align).1 := wf_alloc s size align k hWF hk hal hib
      obtain ⟨w1, w2, w3, w4, w5, w6⟩ := ih hWF1
      rw [hfst, hwc] at w2 w3 w4 w5
      dsimp only at w2 w3 w4 w5
      refine ⟨w1, w2, w3, ?_, ?_, ?_⟩
      · rw [w4]
        simp [List.length_cons]
        omega
      · omega
      · intro _
        omega

/-- As long as strictly fewer `dealloc` calls than outstanding allocations are
made, only the counter moves; the byte cursor stays put. -/
theorem deallocSeq_few (calls : List (Nat × Nat × Nat)) :
    ∀ s : EarlyAllocator, calls.length < s.alloc_count →
      deallocSeq s calls = { s with alloc_count := s.alloc_count - calls.length } := by
  induction calls with
  | nil =>
      intro s hlt
      show s = { s with alloc_count := s.alloc_count - 0 }
      rw [Nat.sub_zero]
  | cons c rest ih =>
      intro s hlt
      rw [List.length_cons] at hlt
      show deallocSeq (s.dealloc c.1 c.2.1 c.2.2) rest = _
      rw [dealloc_eq, if_neg (by omega)]
      rw [ih _ (by dsimp only; omega)]
      dsimp only
      rw [List.length_cons]
      have he : s.alloc_count - 1 - rest.length = s.alloc_count - (rest.length + 1) := by omega
      rw [he]

/-- Deallocating exactly as many times as there are outstanding allocations
resets the byte cursor to `start` and the counter to zero. -/
theorem deallocSeq_full (calls : List (Nat × Nat × Nat)) :
    ∀ s : EarlyAllocator, calls.length = s.alloc_count → 0 < s.alloc_count →
      deallocSeq s calls = { s with alloc_count := 0, byte_pos := s.start } := by
  induction calls with
  | nil =>
      intro s hlen hpos
      rw [← hlen] at hpos
      simp at hpos
  | cons c rest ih =>
      intro s hlen hpos
      rw [List.length_cons] at hlen
      show deallocSeq (s.dealloc c.1 c.2.1 c.2.2) rest = _
      rcases Nat.eq_zero_or_pos rest.length with h0 | h1
      · have hc1 : s.alloc_count = 1 := by omega
        rw [dealloc_eq, if_pos (by omega)]
        have : rest = [] := List.length_eq_zero.mp h0
        subst this
        show ({ s with alloc_count := 0, byte_pos := s.start } : EarlyAllocator) = _
        rfl
      · rw [dealloc_eq, if_neg (by omega)]
        rw [ih _ (by dsimp only; omega) (by dsimp only; omega)]

/-- C1: for every reachable state (produced from `init(start, size)` by any
sequence of `alloc`, `dealloc`, `alloc_pages`, `dealloc_pages` and query calls
with power-of-two alignments and in-bounds arithmetic), the ordering
`start ≤ byte_pos ≤ page_pos ≤ end` holds after every operation. -/
theorem C1_cursor_ordering (ps : Nat) (s : EarlyAllocator) (h : Reachable ps s) :
    s.start ≤ s.byte_pos ∧ s.byte_pos ≤ s.page_pos ∧ s.page_pos ≤ s.end_ := by
  obtain ⟨h1, h2, h3, _, _, _⟩ := reachable_wf h
  exact ⟨h1, h2, h3⟩

/-- Witness for C1 at the concrete state `init(0x2000, 0x4000)`. -/
theorem C1_cursor_ordering_witness :
    (EarlyAllocator.new.init 8192 16384).start ≤ (EarlyAllocator.new.init 8192 16384).byte_pos ∧
    (EarlyAllocator.new.init 8192 16384).byte_pos ≤
      (EarlyAllocator.new.init 8192 16384).page_pos ∧
    (EarlyAllocator.new.init 8192 16384).page_pos ≤ (EarlyAllocator.new.init 8192 16384).end_ :=
  C1_cursor_ordering 4096 _ (Reachable.init EarlyAllocator.new 8192 16384 (by decide))

/-- C10: in every reachable state, a zero outstanding count forces the byte
cursor back at the region start, so the reset in the zero branch of `dealloc`
never moves a cursor that is not already at `start`. -/
theorem C10_zero_count_at_start (ps : Nat) (s : EarlyAllocator) (h : Reachable ps s)
    (hc : s.alloc_count = 0) : s.byte_pos = s.start :=
  (reachable_wf h).2.2.2.2.2 hc

/-- Witness for C10 at the concrete state `init(0x2000, 0x4000)`. -/
theorem C10_zero_count_at_start_witness :
    (EarlyAllocator.new.init 8192 16384).byte_pos = (EarlyAllocator.new.init 8192 16384).start :=
  C10_zero_count_at_start 4096 _ (Reachable.init EarlyAllocator.new 8192 16384 (by decide)) rfl

/-- C9: `dealloc` decrements `alloc_count` saturating at zero: with a positive
count it reduces the count by exactly one for any pointer and layout, and in a
reachable state with count zero it is a complete no-op (no error, no field
changed). -/
theorem C9_dealloc_saturating (ps : Nat) (s : EarlyAllocator) (pos lsize lalign : Nat) :
    (0 < s.alloc_count →
      (s.dealloc pos lsize lalign).alloc_count = s.alloc_count - 1) ∧
    (Reachable ps s → s.alloc_count = 0 → s.dealloc pos lsize lalign = s) := by
  constructor
  · intro hc
    rw [dealloc_eq]
    by_cases h1 : s.alloc_count ≤ 1
    · rw [if_pos h1]
      dsimp only
      omega
    · rw [if_neg h1]
  · intro hreach hc
    have hbp : s.byte_pos = s.start := (reachable_wf hreach).2.2.2.2.2 hc
    rw [dealloc_eq, if_pos (by omega)]
    cases s with
    | mk a b c d e =>
        dsimp only at hbp hc ⊢
        rw [hbp, hc]

/-- Witness for C9: a state with one outstanding allocation loses exactly one
count; the freshly initialized state (count zero) is left fully unchanged. -/
theorem C9_dealloc_saturating_witness :
    ((⟨8192, 24576, 8200, 24576, 1⟩ : EarlyAllocator).dealloc 8192 8 8).alloc_count = 1 - 1 ∧
    (EarlyAllocator.new.init 8192 16384).dealloc 8192 8 8 =
      EarlyAllocator.new.init 8192 16384 :=
  ⟨(C9_dealloc_saturating 4096 ⟨8192, 24576, 8200, 24576, 1⟩ 8192 8 8).1 (by decide),
   (C9_dealloc_saturating 4096 _ 8192 8 8).2
     (Reachable.init EarlyAllocator.new 8192 16384 (by decide)) rfl⟩

/-- Counterexample to C3 as stated: in the ordered state `init(0, 0x1000)` the
request `alloc(8, 8)` satisfies the claim's commit conditions (`size > 0`,
`round_up(byte_pos, align) + size ≤ page_pos`), yet the code does not return
the aligned address: the aligned position is the null address 0, so the final
null-pointer check yields `InvalidParam` (after the cursors were already
bumped). -/
theorem C3_alloc_counterexample :
    (0 : Nat) < 8 ∧ (8 : Nat) = 2 ^ 3 ∧
    stateAtZero.start ≤ stateAtZero.byte_pos ∧
    stateAtZero.byte_pos ≤ stateAtZero.page_pos ∧
    stateAtZero.page_pos ≤ stateAtZero.end_ ∧
    round_up stateAtZero.byte_pos 8 + 8 ≤ stateAtZero.page_pos ∧
    (stateAtZero.alloc 8 8).2 ≠ .ok (round_up stateAtZero.byte_pos 8) ∧
    (stateAtZero.alloc 8 8).2 = .error .InvalidParam := by decide

/-- C3 (amended): for every ordered state whose byte cursor is nonzero, with a
power-of-two align and in-bounds arithmetic, `alloc` rejects `size = 0` with
`InvalidParam`; otherwise with `aligned_pos = round_up(byte_pos, align)` and
`new_pos = aligned_pos + size` it fails with `NoMemory` leaving the state
unchanged when `new_pos > page_pos`, and otherwise sets `byte_pos = new_pos`,
increments `alloc_count` by one and returns `aligned_pos`.  (At `byte_pos = 0`
the aligned position can be the null address and the commit branch returns
`InvalidParam` instead, as the counterexample shows.) -/
theorem C3_alloc_contract (s : EarlyAllocator) (size align k : Nat)
    (hord1 : s.start ≤ s.byte_pos) (hord2 : s.byte_pos ≤ s.page_pos)
    (hord3 : s.page_pos ≤ s.end_)
    (hk : k ≤ 63) (hal : align = 2 ^ k) (hbp : 0 < s.byte_pos)
    (hib : s.byte_pos + align + size ≤ USIZE) (hcnt : s.alloc_count + 1 < USIZE) :
    (size = 0 → s.alloc size align = (s, .error .InvalidParam)) ∧
    (0 < size → s.page_pos < round_up s.byte_pos align + size →
      s.alloc size align = (s, .error .NoMemory)) ∧
    (0 < size → round_up s.byte_pos align + size ≤ s.page_pos →
      s.alloc size align =
        ({ s with byte_pos := round_up s.byte_pos align + size,
                  alloc_count := s.alloc_count + 1 },
         .ok (round_up s.byte_pos align))) := by
  refine ⟨?_, ?_, ?_⟩
  · intro h0
    subst h0
    exact alloc_zero s align
  · intro h1 hmem
    exact alloc_nomem s size align k hk hal hib h1 hmem
  · intro h1 hmem
    have hz : 0 < round_up s.byte_pos align :=
      lt_of_lt_of_le hbp (le_round_up _ _ (by rw [hal]; exact Nat.one_le_two_pow))
    rw [alloc_snd_commit s size align k hk hal hib h1 hmem hz, wrap_of_lt hcnt]

/-- Witness for the amended C3: the spec's own scenario step 2,
`alloc(8, 8)` on `init(0x2000, 0x4000)` returns `0x2000`. -/
theorem C3_alloc_contract_witness :
    (EarlyAllocator.new.init 8192 16384).alloc 8 8 =
      ({ EarlyAllocator.new.init 8192 16384 with
          byte_pos := round_up (EarlyAllocator.new.init 8192 16384).byte_pos 8 + 8,
          alloc_count := 1 },
       .ok (round_up (EarlyAllocator.new.init 8192 16384).byte_pos 8)) :=
  (C3_alloc_contract (EarlyAllocator.new.init 8192 16384) 8 8 3 (by decide) (by decide)
      (by decide) (by decide) rfl (by decide) (by decide) (by decide)).2.2
    (by decide) (by decide)

/-- Counterexample to C2 as stated: at `init(0, 0x1000)` the call `alloc(8, 8)`
returns the error `InvalidParam` (null aligned address), yet the state has
changed: the byte cursor and the counter were committed before the null check,
so a failing request partially commits. -/
theorem C2_error_mutation_counterexample :
    (stateAtZero.alloc 8 8).2 = .error .InvalidParam ∧
    (stateAtZero.alloc 8 8).1 ≠ stateAtZero := by decide

/-- C2 (amended): errors leave the state untouched in all five fields, for
`add_memory` and `alloc_pages` unconditionally and for `alloc` whenever the
byte cursor is nonzero (power-of-two align, in-bounds arithmetic); the single
exception, forced by the counterexample, is the null-address `InvalidParam`
path of `alloc`, reachable only with `byte_pos = 0`, which commits the bump
before failing. -/
theorem C2_error_frame (ps : Nat) (s : EarlyAllocator)
    (size align k num_pages align_pow2 mstart msize : Nat) :
    (k ≤ 63 → align = 2 ^ k → 0 < s.byte_pos → s.byte_pos + align + size ≤ USIZE →
      ∀ e, (s.alloc size align).2 = .error e → (s.alloc size align).1 = s) ∧
    (∀ e, (EarlyAllocator.alloc_pages ps s num_pages align_pow2).2 = .error e →
      (EarlyAllocator.alloc_pages ps s num_pages align_pow2).1 = s) ∧
    (∀ e, (s.add_memory mstart msize).2 = .error e → (s.add_memory mstart msize).1 = s) := by
  refine ⟨?_, ?_, ?_⟩
  · intro hk hal hbp hib e he
    by_cases h0 : size = 0
    · subst h0
      rw [alloc_zero]
    · have h1 : 0 < size := Nat.pos_of_ne_zero h0
      by_cases hmem : s.page_pos < round_up s.byte_pos align + size
      · rw [alloc_nomem s size align k hk hal hib h1 hmem]
      · have hz : 0 < round_up s.byte_pos align :=
          lt_of_lt_of_le hbp (le_round_up _ _ (by rw [hal]; exact Nat.one_le_two_pow))
        rw [alloc_snd_commit s size align k hk hal hib h1 (by omega) hz] at he
        simp at he
  · intro e he
    exact alloc_pages_error_frame ps s num_pages align_pow2 e he
  · intro e _
    rfl

/-- Witness for the amended C2: the `alloc` part at `init(0x2000, 0x4000)` with
an 8-byte request, and the unconditional `alloc_pages`/`add_memory` parts at
the `byte_pos = 0` state of the counterexample (no hypotheses needed there). -/
theorem C2_error_frame_witness :
    (∀ e, ((EarlyAllocator.new.init 8192 16384).alloc 8 8).2 = .error e →
      ((EarlyAllocator.new.init 8192 16384).alloc 8 8).1 = EarlyAllocator.new.init 8192 16384) ∧
    (∀ e, (EarlyAllocator.alloc_pages 4096 stateAtZero 1 0).2 = .error e →
      (EarlyAllocator.alloc_pages 4096 stateAtZero 1 0).1 = stateAtZero) ∧
    (∀ e, (stateAtZero.add_memory 24576 4096).2 = .error e →
      (stateAtZero.add_memory 24576 4096).1 = stateAtZero) :=
  ⟨(C2_error_frame 4096 (EarlyAllocator.new.init 8192 16384) 8 8 3 1 0 24576 4096).1
      (by decide) rfl (by decide) (by decide),
   (C2_error_frame 4096 stateAtZero 8 8 3 1 0 24576 4096).2.1,
   (C2_error_frame 4096 stateAtZero 8 8 3 1 0 24576 4096).2.2⟩

/-- C4: for every ordered state and in-bounds request, `alloc_pages` rejects
`num_pages = 0` with `InvalidParam`; otherwise with
`bytes_size = num_pages * PAGE_SIZE`, `align = PAGE_SIZE << align_pow2` and
`aligned_pos = round_down(page_pos - bytes_size, align)` it fails with
`NoMemory` leaving the state unchanged when `aligned_pos < byte_pos`, and
otherwise sets `page_pos = aligned_pos` and returns `aligned_pos`. -/
theorem C4_alloc_pages_contract (ps : Nat) (s : EarlyAllocator)
    (num_pages align_pow2 j : Nat)
    (hord1 : s.start ≤ s.byte_pos) (hord2 : s.byte_pos ≤ s.page_pos)
    (hord3 : s.page_pos ≤ s.end_) (hend : s.end_ < USIZE)
    (hj : j ≤ 63) (hal : ps <<< align_pow2 = 2 ^ j)
    (hbs : num_pages * ps ≤ s.page_pos) :
    (num_pages = 0 →
      EarlyAllocator.alloc_pages ps s num_pages align_pow2 = (s, .error .InvalidParam)) ∧
    (0 < num_pages →
      round_down (s.page_pos - num_pages * ps) (ps <<< align_pow2) < s.byte_pos →
      EarlyAllocator.alloc_pages ps s num_pages align_pow2 = (s, .error .NoMemory)) ∧
    (0 < num_pages →
      s.byte_pos ≤ round_down (s.page_pos - num_pages * ps) (ps <<< align_pow2) →
      EarlyAllocator.alloc_pages ps s num_pages align_pow2 =
        ({ s with page_pos := round_down (s.page_pos - num_pages * ps) (ps <<< align_pow2) },
         .ok (round_down (s.page_pos - num_pages * ps) (ps <<< align_pow2)))) := by
  have hp : s.page_pos < USIZE := lt_of_le_of_lt hord3 hend
  refine ⟨?_, ?_, ?_⟩
  · intro h0
    subst h0
    exact alloc_pages_zero ps s align_pow2
  · intro h1 hno
    exact alloc_pages_nomem ps s num_pages align_pow2 j hj hal hbs hp h1 hno
  · intro h1 hno
    exact alloc_pages_commit ps s num_pages align_pow2 j hj hal hbs hp h1 hno

/-- Witness for C4: the spec's own scenario step 4, `alloc_pages(1, 0)` on the
state after two byte allocations returns `0x5000`. -/
theorem C4_alloc_pages_contract_witness :
    EarlyAllocator.alloc_pages 4096 ⟨8192, 24576, 8224, 24576, 2⟩ 1 0 =
      ({ (⟨8192, 24576, 8224, 24576, 2⟩ : EarlyAllocator) with
          page_pos := round_down (24576 - 1 * 4096) (4096 <<< 0) },
       .ok (round_down (24576 - 1 * 4096) (4096 <<< 0))) :=
  (C4_alloc_pages_contract 4096 ⟨8192, 24576, 8224, 24576, 2⟩ 1 0 12 (by decide) (by decide)
      (by decide) (by decide) (by decide) rfl (by decide)).2.2 (by decide) (by decide)

/-- C7: in a reachable state whose gap is exhausted (`byte_pos = page_pos`),
every `alloc` call with positive size and every `alloc_pages` call with a
positive page count (power-of-two alignments, in-bounds arithmetic) returns
`NoMemory` and leaves all five fields unchanged. -/
theorem C7_exhausted_rejects (ps : Nat) (s : EarlyAllocator)
    (size align k num_pages align_pow2 j : Nat)
    (hreach : Reachable ps s) (hgap : s.byte_pos = s.page_pos)
    (hk : k ≤ 63) (hal : align = 2 ^ k) (hib : s.byte_pos + align + size ≤ USIZE)
    (hj : j ≤ 63) (halp : ps <<< align_pow2 = 2 ^ j) (hbs : num_pages * ps ≤ s.page_pos)
    (hsz : 0 < size) (hnp : 0 < num_pages) :
    s.alloc size align = (s, .error .NoMemory) ∧
    EarlyAllocator.alloc_pages ps s num_pages align_pow2 = (s, .error .NoMemory) := by
  obtain ⟨h1, h2, h3, h4, h5, h6⟩ := reachable_wf hreach
  constructor
  · apply alloc_nomem s size align k hk hal hib hsz
    have hge : s.byte_pos ≤ round_up s.byte_pos align :=
      le_round_up _ _ (by rw [hal]; exact Nat.one_le_two_pow)
    omega
  · apply alloc_pages_nomem ps s num_pages align_pow2 j hj halp hbs (by omega) hnp
    have hps1 : 1 ≤ ps := by
      by_contra hps
      have hps0 : ps = 0 := by omega
      subst hps0
      rw [Nat.zero_shiftLeft] at halp
      have h2j : (1 : Nat) ≤ 2 ^ j := Nat.one_le_two_pow
      omega
    have hrd := round_down_le (s.page_pos - num_pages * ps) (ps <<< align_pow2)
    have hbs1 : 1 ≤ num_pages * ps := Nat.mul_pos hnp hps1
    omega

/-- Witness for C7 at the zero-sized region `init(0x2000, 0)`, where
`byte_pos = page_pos = 0x2000` from the start. -/
theorem C7_exhausted_rejects_witness :
    (EarlyAllocator.new.init 8192 0).alloc 8 8 =
      (EarlyAllocator.new.init 8192 0, .error .NoMemory) ∧
    EarlyAllocator.alloc_pages 4096 (EarlyAllocator.new.init 8192 0) 1 0 =
      (EarlyAllocator.new.init 8192 0, .error .NoMemory) :=
  C7_exhausted_rejects 4096 (EarlyAllocator.new.init 8192 0) 8 8 3 1 0 12
    (Reachable.init EarlyAllocator.new 8192 0 (by decide)) (by decide) (by decide) rfl
    (by decide) (by decide) rfl (by decide) (by decide) (by decide)

/-- C6: in every reachable state `used_bytes + available_bytes = total_bytes`,
and `total_bytes` (that is, `end - start`) is left constant by every operation
other than `init`: `alloc`, `dealloc`, `alloc_pages`, `dealloc_pages` and
`add_memory`, on any state and any arguments. -/
theorem C6_bytes_accounting (ps : Nat) (s : EarlyAllocator) (h : Reachable ps s) :
    s.used_bytes + s.available_bytes = s.total_bytes ∧
    (∀ (t : EarlyAllocator) (size align : Nat),
      (t.alloc size align).1.total_bytes = t.total_bytes) ∧
    (∀ (t : EarlyAllocator) (pos lsize lalign : Nat),
      (t.dealloc pos lsize lalign).total_bytes = t.total_bytes) ∧
    (∀ (ps2 : Nat) (t : EarlyAllocator) (num_pages align_pow2 : Nat),
      (EarlyAllocator.alloc_pages ps2 t num_pages align_pow2).1.total_bytes = t.total_bytes) ∧
    (∀ (t : EarlyAllocator) (pos num_pages : Nat),
      (t.dealloc_pages pos num_pages).total_bytes = t.total_bytes) ∧
    (∀ (t : EarlyAllocator) (mstart msize : Nat),
      (t.add_memory mstart msize).1.total_bytes = t.total_bytes) := by
  obtain ⟨h1, h2, h3, h4, h5, h6⟩ := reachable_wf h
  refine ⟨?_, ?_, ?_, ?_, ?_, ?_⟩
  · unfold EarlyAllocator.used_bytes EarlyAllocator.available_bytes EarlyAllocator.total_bytes
    rw [usub_of_le h1 (by omega), usub_of_le h3 h4, usub_of_le h2 (by omega),
        usub_of_le (le_trans h1 (le_trans h2 h3)) h4, wrap_of_lt (by unfold USIZE at h4 ⊢; omega)]
    omega
  · intro t size align
    unfold EarlyAllocator.total_bytes
    rw [(alloc_fst_frame t size align).1, (alloc_fst_frame t size align).2.1]
  · intro t pos lsize lalign
    unfold EarlyAllocator.total_bytes
    rw [(dealloc_frame t pos lsize lalign).1, (dealloc_frame t pos lsize lalign).2.1]
  · intro ps2 t num_pages align_pow2
    unfold EarlyAllocator.total_bytes
    rw [(alloc_pages_fst_frame ps2 t num_pages align_pow2).1,
        (alloc_pages_fst_frame ps2 t num_pages align_pow2).2.1]
  · intro t pos num_pages
    rfl
  · intro t mstart msize
    rfl

/-- Witness for C6 at the concrete state `init(0x2000, 0x4000)`. -/
theorem C6_bytes_accounting_witness :
    (EarlyAllocator.new.init 8192 16384).used_bytes +
        (EarlyAllocator.new.init 8192 16384).available_bytes =
      (EarlyAllocator.new.init 8192 16384).total_bytes ∧
    (∀ (t : EarlyAllocator) (size align : Nat),
      (t.alloc size align).1.total_bytes = t.total_bytes) ∧
    (∀ (t : EarlyAllocator) (pos lsize lalign : Nat),
      (t.dealloc pos lsize lalign).total_bytes = t.total_bytes) ∧
    (∀ (ps2 : Nat) (t : EarlyAllocator) (num_pages align_pow2 : Nat),
      (EarlyAllocator.alloc_pages ps2 t num_pages align_pow2).1.total_bytes = t.total_bytes) ∧
    (∀ (t : EarlyAllocator) (pos num_pages : Nat),
      (t.dealloc_pages pos num_pages).total_bytes = t.total_bytes) ∧
    (∀ (t : EarlyAllocator) (mstart msize : Nat),
      (t.add_memory mstart msize).1.total_bytes = t.total_bytes) :=
  C6_bytes_accounting 4096 _ (Reachable.init EarlyAllocator.new 8192 16384 (by decide))

/-- Counterexample to C8 as stated: the claim says `page_pos` after any
`alloc_pages` call is strictly less than before, but a rejected call — here
`alloc_pages(0, 0)`, rejected with `InvalidParam` — leaves `page_pos`
exactly where it was. -/
theorem C8_page_pos_counterexample :
    ¬ ((EarlyAllocator.alloc_pages 4096 (EarlyAllocator.new.init 8192 16384) 0 0).1.page_pos <
        (EarlyAllocator.new.init 8192 16384).page_pos) := by decide

/-- C8 (amended): `page_pos` is monotonically non-increasing under every
operation except `init`; after any *successful* `alloc_pages` call (the call
returns `Ok`) it is strictly less than before, and it never increases under
`alloc_pages` (in-bounds arithmetic, power-of-two page size and alignment);
a rejected `alloc_pages` call leaves `page_pos` exactly unchanged,
unconditionally; and `alloc`, `dealloc`, `dealloc_pages` and `add_memory`
never move `page_pos` at all. -/
theorem C8_page_pos_monotone (ps : Nat) (s : EarlyAllocator)
    (num_pages align_pow2 j r size align pos lsize lalign dpos dnum mstart msize : Nat) :
    (j ≤ 63 → ps <<< align_pow2 = 2 ^ j → num_pages * ps ≤ s.page_pos →
      s.page_pos < USIZE →
      ((EarlyAllocator.alloc_pages ps s num_pages align_pow2).2 = .ok r →
        (EarlyAllocator.alloc_pages ps s num_pages align_pow2).1.page_pos < s.page_pos) ∧
      (EarlyAllocator.alloc_pages ps s num_pages align_pow2).1.page_pos ≤ s.page_pos) ∧
    (∀ e, (EarlyAllocator.alloc_pages ps s num_pages align_pow2).2 = .error e →
      (EarlyAllocator.alloc_pages ps s num_pages align_pow2).1.page_pos = s.page_pos) ∧
    (s.alloc size align).1.page_pos = s.page_pos ∧
    (s.dealloc pos lsize lalign).page_pos = s.page_pos ∧
    (s.dealloc_pages dpos dnum).page_pos = s.page_pos ∧
    (s.add_memory mstart msize).1.page_pos = s.page_pos := by
  refine ⟨?_, ?_, ?_, ?_, ?_, ?_⟩
  · intro hj hal hbs hp
    have hps1 : 1 ≤ ps := by
      by_contra hps
      have hps0 : ps = 0 := by omega
      subst hps0
      rw [Nat.zero_shiftLeft] at hal
      have h2j : (1 : Nat) ≤ 2 ^ j := Nat.one_le_two_pow
      omega
    have hrd := round_down_le (s.page_pos - num_pages * ps) (ps <<< align_pow2)
    constructor
    · intro hok
      by_cases h0 : num_pages = 0
      · subst h0
        rw [alloc_pages_zero] at hok
        simp at hok
      · have hnp : 0 < num_pages := Nat.pos_of_ne_zero h0
        by_cases hno : round_down (s.page_pos - num_pages * ps) (ps <<< align_pow2) <
            s.byte_pos
        · rw [alloc_pages_nomem ps s num_pages align_pow2 j hj hal hbs hp hnp hno] at hok
          simp at hok
        · rw [alloc_pages_commit ps s num_pages align_pow2 j hj hal hbs hp hnp (by omega)]
          dsimp only
          have hbs1 : 1 ≤ num_pages * ps := Nat.mul_pos hnp hps1
          omega
    · by_cases h0 : num_pages = 0
      · subst h0
        rw [alloc_pages_zero]
      · have hnp : 0 < num_pages := Nat.pos_of_ne_zero h0
        by_cases hno : round_down (s.page_pos - num_pages * ps) (ps <<< align_pow2) <
            s.byte_pos
        · rw [alloc_pages_nomem ps s num_pages align_pow2 j hj hal hbs hp hnp hno]
        · rw [alloc_pages_commit ps s num_pages align_pow2 j hj hal hbs hp hnp (by omega)]
          dsimp only
          omega
  · intro e he
    rw [alloc_pages_error_frame ps s num_pages align_pow2 e he]
  · exact (alloc_fst_frame s size align).2.2
  · exact (dealloc_frame s pos lsize lalign).2.2
  · rfl
  · rfl

/-- Witness for the amended C8 at `init(0x2000, 0x4000)`: a successful one-page
request strictly lowers `page_pos`, a rejected zero-page request leaves it
unchanged, and the other operations never move it. -/
theorem C8_page_pos_monotone_witness :
    (((EarlyAllocator.alloc_pages 4096 (EarlyAllocator.new.init 8192 16384) 1 0).2 =
        .ok 20480 →
      (EarlyAllocator.alloc_pages 4096 (EarlyAllocator.new.init 8192 16384) 1 0).1.page_pos <
        (EarlyAllocator.new.init 8192 16384).page_pos) ∧
      (EarlyAllocator.alloc_pages 4096 (EarlyAllocator.new.init 8192 16384) 1 0).1.page_pos ≤
        (EarlyAllocator.new.init 8192 16384).page_pos) ∧
    (∀ e, (EarlyAllocator.alloc_pages 4096 (EarlyAllocator.new.init 8192 16384) 0 0).2 =
        .error e →
      (EarlyAllocator.alloc_pages 4096 (EarlyAllocator.new.init 8192 16384) 0 0).1.page_pos =
        (EarlyAllocator.new.init 8192 16384).page_pos) ∧
    ((EarlyAllocator.new.init 8192 16384).alloc 8 8).1.page_pos =
      (EarlyAllocator.new.init 8192 16384).page_pos ∧
    ((EarlyAllocator.new.init 8192 16384).dealloc 8192 8 8).page_pos =
      (EarlyAllocator.new.init 8192 16384).page_pos ∧
    ((EarlyAllocator.new.init 8192 16384).dealloc_pages 20480 1).page_pos =
      (EarlyAllocator.new.init 8192 16384).page_pos ∧
    ((EarlyAllocator.new.init 8192 16384).add_memory 24576 4096).1.page_pos =
      (EarlyAllocator.new.init 8192 16384).page_pos :=
  ⟨(C8_page_pos_monotone 4096 (EarlyAllocator.new.init 8192 16384) 1 0 12 20480 8 8 8192 8 8
      20480 1 24576 4096).1 (by decide) rfl (by decide) (by decide),
   (C8_page_pos_monotone 4096 (EarlyAllocator.new.init 8192 16384) 0 0 12 20480 8 8 8192 8 8
      20480 1 24576 4096).2.1,
   (C8_page_pos_monotone 4096 (EarlyAllocator.new.init 8192 16384) 1 0 12 20480 8 8 8192 8 8
      20480 1 24576 4096).2.2.1,
   (C8_page_pos_monotone 4096 (EarlyAllocator.new.init 8192 16384) 1 0 12 20480 8 8 8192 8 8
      20480 1 24576 4096).2.2.2.1,
   (C8_page_pos_monotone 4096 (EarlyAllocator.new.init 8192 16384) 1 0 12 20480 8 8 8192 8 8
      20480 1 24576 4096).2.2.2.2.1,
   (C8_page_pos_monotone 4096 (EarlyAllocator.new.init 8192 16384) 1 0 12 20480 8 8 8192 8 8
      20480 1 24576 4096).2.2.2.2.2⟩

/-- C5: starting from a reachable state with `alloc_count = 0`, after `N ≥ 1`
successful `alloc` calls, running `N` `dealloc` calls (with arbitrary pointer
and layout arguments — `dealloc` ignores them, so any order of the `N` pointers
is covered) leaves `byte_pos` unchanged after each of the first `N - 1` calls,
never at `start` before the last call, and resets `byte_pos` to `start`
exactly when the `N`-th call is processed. -/
theorem C5_roundtrip (ps N : Nat) (s0 s1 : EarlyAllocator) (reqs : List (Nat × Nat))
    (hreach : Reachable ps s0) (h0 : s0.alloc_count = 0) (hN : 1 ≤ N)
    (hlen : reqs.length = N) (hch : AllocChain s0 reqs s1) :
    ∀ calls : List (Nat × Nat × Nat), calls.length = N →
      ((∀ i, i < N → (deallocSeq s1 (calls.take i)).byte_pos = s1.byte_pos ∧
        (deallocSeq s1 (calls.take i)).byte_pos ≠ s0.start) ∧
      (deallocSeq s1 calls).byte_pos = s0.start) := by
  have hWF0 := reachable_wf hreach
  obtain ⟨w1, w2, w3, w4, w5, w6⟩ := allocChain_props hch hWF0
  have hbp0 : s0.byte_pos = s0.start := hWF0.2.2.2.2.2 h0
  have hne : reqs ≠ [] := by
    intro hnil
    rw [hnil] at hlen
    simp at hlen
    omega
  have hlt : s0.start < s1.byte_pos := by
    have := w6 hne
    omega
  have hcount : s1.alloc_count = N := by
    rw [w4, h0, hlen]
    omega
  intro calls hcl
  constructor
  · intro i hi
    have htake : (calls.take i).length = i := by
      rw [List.length_take]
      omega
    have hpl : (calls.take i).length < s1.alloc_count := by omega
    rw [deallocSeq_few (calls.take i) s1 hpl]
    exact ⟨rfl, by dsimp only; omega⟩
  · rw [deallocSeq_full calls s1 (by omega) (by omega)]
    dsimp only
    omega

/-- Witness for C5 with `N = 1`: one successful 8-byte allocation on
`init(0x2000, 0x4000)`, then one `dealloc` call restores `byte_pos = 0x2000`. -/
theorem C5_roundtrip_witness :
    (deallocSeq ((EarlyAllocator.new.init 8192 16384).alloc 8 8).1
        [(8192, 8, 8)]).byte_pos =
      (EarlyAllocator.new.init 8192 16384).start :=
  (C5_roundtrip 4096 1 (EarlyAllocator.new.init 8192 16384)
    ((EarlyAllocator.new.init 8192 16384).alloc 8 8).1 [(8, 8)]
    (Reachable.init EarlyAllocator.new 8192 16384 (by decide)) rfl (by decide) rfl
    (AllocChain.cons _ _ 8 8 3 8192 [] (by decide) rfl (by decide) (by decide)
      (AllocChain.nil _))
    [(8192, 8, 8)] rfl).2
